import Mathlib

/-!
Shallow embedding of the `xprocess-lock` Rust crate (src/lib.rs, src/error.rs):
a named cross-process file-locking library.  Pure helpers (`sanitize`,
`default_base_dir`, `XProcessLock.create`) are translated directly; the
filesystem effects of `open_locked` / `open_locked_async` are modelled by an
explicit filesystem state `FS` threaded through the functions; the OS advisory
lock table (which lives in the operating system, not in this crate) is modelled
from the specification as a transition system.
-/

namespace XProcess

/-- Rust `char::is_ascii_alphanumeric`: `'0'..='9' | 'A'..='Z' | 'a'..='z'`. -/
def is_ascii_alphanumeric (c : Char) : Bool :=
  (48 ≤ c.val && c.val ≤ 57) || (65 ≤ c.val && c.val ≤ 90) || (97 ≤ c.val && c.val ≤ 122)

/-- The per-character map inside `sanitize`:
`if c.is_ascii_alphanumeric() || c == '-' || c == '_' { c } else { '_' }`. -/
def sanitizeChar (c : Char) : Char :=
  if is_ascii_alphanumeric c || c == '-' || c == '_' then c else '_'

/-- Source function `fn sanitize(s: &str) -> String` from src/lib.rs:
`s.chars().map(|c| ...).collect()`.  Rust `chars()` iterates Unicode scalar
values, exactly the elements of `String.data` in Lean. -/
def sanitize (s : String) : String :=
  ⟨s.data.map sanitizeChar⟩

/-- The Unicode `White_Space` code points, the set trimmed by Rust
`str::trim` (via `char::is_whitespace`). -/
def rustIsWhitespace (c : Char) : Bool :=
  c.val == 0x9 || c.val == 0xA || c.val == 0xB || c.val == 0xC || c.val == 0xD ||
  c.val == 0x20 || c.val == 0x85 || c.val == 0xA0 || c.val == 0x1680 ||
  (0x2000 ≤ c.val && c.val ≤ 0x200A) ||
  c.val == 0x2028 || c.val == 0x2029 || c.val == 0x202F || c.val == 0x205F ||
  c.val == 0x3000

/-- Rust `str::trim`: strip leading and trailing Unicode whitespace. -/
def rustTrim (s : String) : String :=
  ⟨((s.data.dropWhile rustIsWhitespace).reverse.dropWhile rustIsWhitespace).reverse⟩

/-- Rust `Path::join` on string-modelled paths.  Rust semantics: joining onto an
empty path yields the component alone; joining an absolute component replaces
the base; otherwise the component is appended after a separator. -/
def pathJoin (p c : String) : String :=
  if p = "" then c
  else if c.data.head? = some '/' then c
  else p ++ "/" ++ c

/-- Rust `Path::parent` on string-modelled paths: everything before the final
separator (`none` for the root and the empty path, `some ""` for a bare
relative file name, `some "/"` for a file directly under the root,
mirroring Rust). -/
def pathParent (p : String) : Option String :=
  if p = "" ∨ p = "/" then none
  else
    match p.data.reverse.dropWhile (fun c => c ≠ '/') with
    | [] => some ""
    | _ :: rest => if rest = [] then some "/" else some ⟨rest.reverse⟩

/-- Source function `fn default_base_dir() -> PathBuf`:
`env::var_os("XPROCESS_LOCK_DIR").map(PathBuf::from).unwrap_or_else(|| env::temp_dir().join("xprocess-lock"))`.
The environment read is modelled by the parameter `env` (the value of
`XPROCESS_LOCK_DIR`, `none` when unset — note Rust `var_os` yields
`Some("")` when the variable is set to the empty string) and the platform
temp directory by `tempDir`. -/
def default_base_dir (env : Option String) (tempDir : String) : String :=
  match env with
  | some v => v
  | none => pathJoin tempDir "xprocess-lock"

/-- The error type from src/error.rs.  `io::Error` and `tokio::task::JoinError`
payloads are modelled as their OS error codes (`Nat`). -/
inductive Error where
  | AcquireLock (path : String) (mode : String) (source : Nat)
  | CreateDir (path : String) (source : Nat)
  | EmptyName
  | JoinBlocking (source : Nat)
  | OpenLockFile (path : String) (source : Nat)
  deriving DecidableEq, Repr

/-- Source type `struct XProcessLock { lock_file: PathBuf }`. -/
structure XProcessLock where
  lock_file : String
  deriving DecidableEq, Repr

/-- Source function `XProcessLock::create`: reject names that are empty after trimming, else
store `<default_base_dir>/<sanitize(name)>.lock` (built from the *untrimmed*
name). -/
def create (env : Option String) (tempDir : String) (name : String) :
    Except Error XProcessLock :=
  if rustTrim name = "" then .error .EmptyName
  else .ok ⟨pathJoin (default_base_dir env tempDir) (sanitize name ++ ".lock")⟩

example : sanitize "Safe-Name_123" = "Safe-Name_123" := by decide
example : sanitize "bad name!" = "bad_name_" := by decide
example : sanitize "foo.bar" = "foo_bar" := by decide
example : sanitize "über" = "_ber" := by decide
example : sanitize "你好" = "__" := by decide
example : create none "/tmp" "" = .error .EmptyName := by rfl
example : create none "/tmp" "   " = .error .EmptyName := by rfl
example : create none "/tmp" " a " = .ok ⟨"/tmp/xprocess-lock/_a_.lock"⟩ := by rfl
example : default_base_dir (some "/tmp/custom") "/tmp" = "/tmp/custom" := by rfl
example : default_base_dir none "/tmp" = "/tmp/xprocess-lock" := by rfl

/-! ## Filesystem model

`std::fs` effects are modelled by a deterministic filesystem state: the set of
existing directories, the existing files with their contents, and association
lists giving the OS error code with which a given primitive call fails (empty
lists model a healthy filesystem). -/

/-- An open file handle (`std::fs::File`): in this model, the path it was
opened at. -/
structure RFile where
  path : String
  deriving DecidableEq, Repr

/-- Deterministic filesystem state. -/
structure FS where
  dirs : List String
  files : List (String × List Nat)
  failCreate : List (String × Nat)
  failOpen : List (String × Nat)
  failLock : List ((String × String) × Nat)
  deriving DecidableEq, Repr

/-- Rust `std::fs::create_dir_all` (and `tokio::fs::create_dir_all`, which has the
same filesystem semantics): succeeds without change when the directory exists,
otherwise fails with the configured OS error or records the new directory. -/
def createDirAll (fs : FS) (d : String) : Except Nat FS :=
  if d ∈ fs.dirs then .ok fs
  else
    match fs.failCreate.lookup d with
    | some e => .error e
    | none => .ok { fs with dirs := d :: fs.dirs }

/-- The four flags set on `OpenOptions` in `open_lock_file`. -/
structure OpenOptions where
  read : Bool
  write : Bool
  create : Bool
  truncate : Bool
  deriving DecidableEq, Repr

/-- Rust `OpenOptions::open`: fail with the configured OS error, else open the
existing file (clearing its contents iff `truncate`), else create it empty
iff `create`, else fail with `ENOENT` (code 2). -/
def openWith (opts : OpenOptions) (fs : FS) (p : String) :
    Except Nat (RFile × FS) :=
  match fs.failOpen.lookup p with
  | some e => .error e
  | none =>
    match fs.files.lookup p with
    | some _ =>
      if opts.truncate then
        .ok (⟨p⟩, { fs with files := (p, []) :: fs.files.filter (fun kv => kv.1 ≠ p) })
      else .ok (⟨p⟩, fs)
    | none =>
      if opts.create then .ok (⟨p⟩, { fs with files := (p, []) :: fs.files })
      else .error 2

/-- The options `open_lock_file` sets:
`.read(true).write(true).create(true).truncate(false)`. -/
def lockOpenOptions : OpenOptions :=
  { read := true, write := true, create := true, truncate := false }

/-- Source function `fn open_lock_file(path: &Path) -> io::Result<File>` from src/lib.rs. -/
def open_lock_file (fs : FS) (p : String) : Except Nat (RFile × FS) :=
  openWith lockOpenOptions fs p

/-- Rust `File::lock` / `File::lock_shared`: the OS either grants the advisory lock
(after blocking; blocking time is outside this model) or fails outright with
the configured error code. -/
def fileLock (fs : FS) (f : RFile) (modeStr : String) : Except Nat Unit :=
  match fs.failLock.lookup (f.path, modeStr) with
  | some e => .error e
  | none => .ok ()

/-- Source type `enum LockMode { Exclusive, Shared }`. -/
inductive LockMode where
  | Exclusive
  | Shared
  deriving DecidableEq, Repr

/-- The `if let Some(dir) = path.parent() { create_dir_all(dir).context(..)? }`
step shared by `open_locked` and `open_locked_async`: ensure the lock file's
parent directory exists, wrapping a failure as `CreateDir` with the attempted
directory path. -/
def ensure_parent_dir (fs : FS) (path : String) : Except Error FS :=
  match pathParent path with
  | some dir =>
    match createDirAll fs dir with
    | .error e => .error (.CreateDir dir e)
    | .ok fs1 => .ok fs1
  | none => .ok fs

/-- The open-then-lock tail of `open_locked`: open the lock file (wrapping a
failure as `OpenLockFile` with the path), then acquire the OS lock in the
requested mode (wrapping a failure as `AcquireLock` with the path and the
mode string). -/
def open_and_lock (fs : FS) (path : String) (mode : LockMode) :
    Except Error (RFile × FS) :=
  match open_lock_file fs path with
  | .error e => .error (.OpenLockFile path e)
  | .ok (f, fs2) =>
    match mode with
    | .Exclusive =>
      match fileLock fs2 f "exclusive" with
      | .error e => .error (.AcquireLock path "exclusive" e)
      | .ok _ => .ok (f, fs2)
    | .Shared =>
      match fileLock fs2 f "shared" with
      | .error e => .error (.AcquireLock path "shared" e)
      | .ok _ => .ok (f, fs2)

/-- Source function `fn open_locked(path: &Path, mode: LockMode) -> Result<File>`: ensure the
parent directory, open the lock file, then acquire the OS lock in the
requested mode, wrapping each failure in its distinct error variant. -/
def open_locked (fs : FS) (path : String) (mode : LockMode) :
    Except Error (RFile × FS) :=
  match ensure_parent_dir fs path with
  | .error e => .error e
  | .ok fs1 => open_and_lock fs1 path mode

/-- Source function `async fn open_locked_async(path: PathBuf, mode: LockMode)`: ensure the
parent directory via `tokio::fs::create_dir_all` (same filesystem semantics),
then run `open_locked` on a blocking worker.  `joinFail = some e` models the
`spawn_blocking` join handle failing with a `JoinError`; `none` models the
worker running to completion. -/
def open_locked_async (fs : FS) (path : String) (mode : LockMode)
    (joinFail : Option Nat) : Except Error (RFile × FS) :=
  match ensure_parent_dir fs path with
  | .error e => .error e
  | .ok fs1 =>
    match joinFail with
    | some je => .error (.JoinBlocking je)
    | none => open_locked fs1 path mode

/-- Source type `struct LockGuard(File)`. -/
structure LockGuard where
  file : RFile
  deriving DecidableEq, Repr

/-- Source method `LockGuard::unlock(self)`: consumes the guard (`drop(self)`). -/
def LockGuard.unlock (_g : LockGuard) : Unit := ()

/-- The ambient process state a lock call runs in: the environment variable,
the platform temp directory, and the filesystem. -/
structure World where
  env : Option String
  tempDir : String
  fs : FS
  deriving DecidableEq, Repr

/-- Sync `XProcessLock::lock_exclusive` (feature "blocking"):
`open_locked(&self.lock_file, LockMode::Exclusive)` wrapped in a `LockGuard`.
Only `w.fs` and the stored `lock_file` are consulted. -/
def lock_exclusive (self : XProcessLock) (w : World) :
    Except Error (LockGuard × FS) :=
  match open_locked w.fs self.lock_file .Exclusive with
  | .error e => .error e
  | .ok (f, fs') => .ok (⟨f⟩, fs')

/-- Sync `XProcessLock::lock_shared` (feature "blocking"). -/
def lock_shared (self : XProcessLock) (w : World) :
    Except Error (LockGuard × FS) :=
  match open_locked w.fs self.lock_file .Shared with
  | .error e => .error e
  | .ok (f, fs') => .ok (⟨f⟩, fs')

/-- Async `XProcessLock::lock_exclusive` (feature "async"). -/
def lock_exclusive_async (self : XProcessLock) (w : World)
    (joinFail : Option Nat) : Except Error (LockGuard × FS) :=
  match open_locked_async w.fs self.lock_file .Exclusive joinFail with
  | .error e => .error e
  | .ok (f, fs') => .ok (⟨f⟩, fs')

/-- Async `XProcessLock::lock_shared` (feature "async"). -/
def lock_shared_async (self : XProcessLock) (w : World)
    (joinFail : Option Nat) : Except Error (LockGuard × FS) :=
  match open_locked_async w.fs self.lock_file .Shared joinFail with
  | .error e => .error e
  | .ok (f, fs') => .ok (⟨f⟩, fs')

/-! ## OS advisory lock table

The advisory lock granted by `File::lock` / `File::lock_shared` lives in the
operating system's lock table, not in this crate.  It is modelled from the
spec as a transition system on the set of current holders of one lock file. -/

/-- Modelled from the spec: the OS lock table for a single lock file — the
current holders, each a (holder id, mode) pair.  (`File::lock` /
`File::lock_shared` are std-library/OS primitives, not code of this crate.) -/
abbrev LockTable := List (Nat × LockMode)

/-- Modelled from the spec: whether the OS may grant a request in mode `m`
given the current holders — an Exclusive request is granted only when no
holder exists; a Shared request is granted exactly when no Exclusive holder
exists.  A request whose grant condition is false blocks (no timeout is
modelled; the requester simply takes no step until the table changes). -/
def grantOK (tbl : LockTable) : LockMode → Bool
  | .Exclusive => tbl.isEmpty
  | .Shared => tbl.all (fun p => p.2 = LockMode.Shared)

/-- Modelled from the spec: one transition of the lock table — a new holder
is granted a lock whose grant condition holds, or an existing holder
releases (drops its guard). -/
inductive LockStep : LockTable → LockTable → Prop where
  | acquire (h : Nat) (m : LockMode) (tbl : LockTable) :
      h ∉ tbl.map Prod.fst → grantOK tbl m = true →
      LockStep tbl ((h, m) :: tbl)
  | release (h : Nat) (tbl : LockTable) :
      LockStep tbl (tbl.filter (fun p => p.1 ≠ h))

/-- Lock tables reachable from the initial (empty, unheld) table. -/
inductive LockReachable : LockTable → Prop where
  | init : LockReachable []
  | step {t t' : LockTable} : LockReachable t → LockStep t t' → LockReachable t'

/-- Number of Exclusive holders in a table. -/
def exclCount (tbl : LockTable) : Nat :=
  tbl.countP (fun p => p.2 = LockMode.Exclusive)

/-- A reachable table of `n` Shared holders (holder ids `0..n-1`). -/
def sharedTable : Nat → LockTable
  | 0 => []
  | n + 1 => (n, .Shared) :: sharedTable n

/-! ## Helper lemmas -/

/-- The character set the specification allows `sanitize` to keep:
ASCII alphanumerics (`'0'..'9'` = code points 48–57, `'A'..'Z'` = 65–90,
`'a'..'z'` = 97–122), hyphen, underscore. -/
def allowedChar (c : Char) : Prop :=
  (48 ≤ c.val ∧ c.val ≤ 57) ∨ (65 ≤ c.val ∧ c.val ≤ 90) ∨
  (97 ≤ c.val ∧ c.val ≤ 122) ∨ c = '-' ∨ c = '_'

instance (c : Char) : Decidable (allowedChar c) := by
  unfold allowedChar; infer_instance

lemma allowedChar_iff (c : Char) :
    allowedChar c ↔ (is_ascii_alphanumeric c || c == '-' || c == '_') = true := by
  unfold allowedChar is_ascii_alphanumeric
  simp only [Bool.or_eq_true, Bool.and_eq_true, decide_eq_true_eq, beq_iff_eq]
  tauto

lemma sanitizeChar_of_allowed {c : Char} (h : allowedChar c) : sanitizeChar c = c := by
  unfold sanitizeChar
  rw [if_pos ((allowedChar_iff c).1 h)]

lemma sanitizeChar_of_not_allowed {c : Char} (h : ¬ allowedChar c) :
    sanitizeChar c = '_' := by
  unfold sanitizeChar
  rw [if_neg]
  intro hc
  exact h ((allowedChar_iff c).2 hc)

lemma sanitizeChar_idem (c : Char) : sanitizeChar (sanitizeChar c) = sanitizeChar c := by
  by_cases h : allowedChar c
  · rw [sanitizeChar_of_allowed h, sanitizeChar_of_allowed h]
  · rw [sanitizeChar_of_not_allowed h]
    exact sanitizeChar_of_allowed (by decide)

lemma sanitize_data (s : String) : (sanitize s).data = s.data.map sanitizeChar := rfl

lemma create_ok_lock_file {env : Option String} {tempDir name : String}
    {hx : XProcessLock} (h : create env tempDir name = .ok hx) :
    hx.lock_file = pathJoin (default_base_dir env tempDir) (sanitize name ++ ".lock") := by
  unfold create at h
  by_cases ht : rustTrim name = ""
  · rw [if_pos ht] at h; cases h
  · rw [if_neg ht] at h
    cases h
    rfl

lemma rustTrim_eq_empty_iff (s : String) :
    rustTrim s = "" ↔ s.data.all rustIsWhitespace = true := by
  unfold rustTrim
  rw [show ("" : String) = ⟨[]⟩ from rfl, String.ext_iff, List.all_eq_true]
  show _ = ([] : List Char) ↔ _
  rw [List.reverse_eq_nil_iff, List.dropWhile_eq_nil_iff]
  constructor
  · intro h x hx
    rcases List.mem_append.1
        ((List.takeWhile_append_dropWhile (p := rustIsWhitespace) (l := s.data)) ▸ hx) with
      h1 | h2
    · exact List.mem_takeWhile_imp h1
    · exact h x (List.mem_reverse.2 h2)
  · intro h x hx
    exact h x ((List.dropWhile_sublist _).mem (List.mem_reverse.1 hx))

/-! ## Claim theorems -/

/-- C8: for every input string `s`, `sanitize (sanitize s) = sanitize s`. -/
theorem C8_sanitize_idempotent (s : String) : sanitize (sanitize s) = sanitize s := by
  show String.mk ((s.data.map sanitizeChar).map sanitizeChar) = String.mk (s.data.map sanitizeChar)
  rw [List.map_map]
  have h : sanitizeChar ∘ sanitizeChar = sanitizeChar := funext sanitizeChar_idem
  rw [h]

/-- C8 witness: idempotence of `sanitize` at a concrete input. -/
theorem C8_witness : sanitize (sanitize "bad name!ü") = sanitize "bad name!ü" :=
  C8_sanitize_idempotent "bad name!ü"

/-- C1 counterexample: the claim says a non-ASCII character's constituent
encoded units are each replaced by one underscore, so the 2-byte character
`'ü'` would become two underscores; `sanitize` iterates Unicode scalar values
(`chars()`), so `sanitize "ü"` is the single-character string `"_"`. -/
theorem C1_counterexample :
    sanitize "ü" = "_" ∧ Char.utf8Size 'ü' = 2 ∧ (sanitize "ü").length = 1 :=
  ⟨rfl, by decide, rfl⟩

/-- C1 (amended): `sanitize` maps each character (Unicode scalar value, not
encoded unit) outside the allowed set to exactly one underscore and keeps
allowed characters, so the output has exactly one character per input
character regardless of encoded width. -/
theorem C1_sanitize_per_scalar (s : String) :
    (sanitize s).length = s.length
  ∧ (sanitize s).data = s.data.map sanitizeChar
  ∧ (∀ c, allowedChar c → sanitizeChar c = c)
  ∧ (∀ c, ¬ allowedChar c → sanitizeChar c = '_') := by
  refine ⟨?_, rfl, fun c h => sanitizeChar_of_allowed h,
    fun c h => sanitizeChar_of_not_allowed h⟩
  show (s.data.map sanitizeChar).length = s.data.length
  exact List.length_map s.data sanitizeChar

/-- C1 witness: the amended statement evaluated at `"ü"`. -/
theorem C1_witness :
    (sanitize "ü").length = ("ü" : String).length ∧ sanitizeChar 'ü' = '_' :=
  ⟨(C1_sanitize_per_scalar "ü").1, (C1_sanitize_per_scalar "ü").2.2.2 'ü' (by decide)⟩

/-- C3 counterexample: with the environment variable set to the empty string
(`var_os` yields `Some("")`), `default_base_dir` returns the empty path
verbatim, not `<temp>/xprocess-lock` as the claim says for the "empty" case. -/
theorem C3_counterexample :
    default_base_dir (some "") "/tmp" = "" ∧
    default_base_dir (some "") "/tmp" ≠ pathJoin "/tmp" "xprocess-lock" :=
  ⟨rfl, by decide⟩

/-- C3 (amended): `default_base_dir` returns the override verbatim whenever
the variable is set — including set to the empty string — and returns
`<temp dir>/xprocess-lock` exactly when it is unset; the lock-file path of a
successfully created handle is `default_base_dir` joined with
`sanitize(name) + ".lock"`. -/
theorem C3_base_dir (env : Option String) (tempDir name : String) :
    default_base_dir none tempDir = pathJoin tempDir "xprocess-lock"
  ∧ (∀ v, default_base_dir (some v) tempDir = v)
  ∧ (∀ hx, create env tempDir name = .ok hx →
      hx.lock_file = pathJoin (default_base_dir env tempDir) (sanitize name ++ ".lock")) :=
  ⟨rfl, fun _ => rfl, fun _ h => create_ok_lock_file h⟩

/-- C3 witness: the amended statement evaluated at a concrete override. -/
theorem C3_witness :
    (XProcessLock.mk "/tmp/custom/a.lock").lock_file =
      pathJoin (default_base_dir (some "/tmp/custom") "/tmp") (sanitize "a" ++ ".lock") :=
  (C3_base_dir (some "/tmp/custom") "/tmp" "a").2.2 ⟨"/tmp/custom/a.lock"⟩ rfl

/-- C4: `create` fails, and fails with `EmptyName`, exactly when the name
trims to the empty string (i.e. is empty or all-whitespace); a successful
handle's file name is derived from the untrimmed name, so `create " a "`
succeeds with file `_a_.lock`.  (`create` is a pure path computation in this
embedding: it takes no filesystem state, witnessing that the check precedes
any filesystem interaction.) -/
theorem C4_create_empty_name (env : Option String) (tempDir name : String) :
    (create env tempDir name = .error .EmptyName ↔ rustTrim name = "")
  ∧ (rustTrim name = "" ↔ name.data.all rustIsWhitespace = true)
  ∧ (∀ e, create env tempDir name = .error e → e = .EmptyName)
  ∧ (∀ hx, create env tempDir name = .ok hx →
      hx.lock_file = pathJoin (default_base_dir env tempDir) (sanitize name ++ ".lock"))
  ∧ create env tempDir " a " = .ok ⟨pathJoin (default_base_dir env tempDir) "_a_.lock"⟩ := by
  refine ⟨?_, rustTrim_eq_empty_iff name, ?_, fun _ h => create_ok_lock_file h, ?_⟩
  · unfold create
    by_cases ht : rustTrim name = ""
    · simp [ht]
    · simp [ht]
  · intro e he
    unfold create at he
    by_cases ht : rustTrim name = ""
    · rw [if_pos ht] at he
      cases he
      rfl
    · rw [if_neg ht] at he
      cases he
  · show create env tempDir " a " = _
    unfold create
    rw [if_neg (by decide)]
    rfl

/-- C4 witness: the statement evaluated at concrete names. -/
theorem C4_witness :
    create none "/tmp" "   " = .error .EmptyName ∧
    (XProcessLock.mk "/tmp/xprocess-lock/_a_.lock").lock_file =
      pathJoin (default_base_dir none "/tmp") (sanitize " a " ++ ".lock") :=
  ⟨(C4_create_empty_name none "/tmp" "   ").1.2 rfl,
   (C4_create_empty_name none "/tmp" " a ").2.2.2.1 ⟨"/tmp/xprocess-lock/_a_.lock"⟩ rfl⟩

lemma createDirAll_ok_idem {fs fs1 : FS} {d : String}
    (h : createDirAll fs d = .ok fs1) : createDirAll fs1 d = .ok fs1 := by
  unfold createDirAll at h ⊢
  by_cases hd : d ∈ fs.dirs
  · rw [if_pos hd] at h
    cases h
    rw [if_pos hd]
  · rw [if_neg hd] at h
    cases hl : fs.failCreate.lookup d
    · rw [hl] at h
      cases h
      rw [if_pos (List.mem_cons_self d fs.dirs)]
    · rw [hl] at h
      cases h

lemma createDirAll_files {fs fs1 : FS} {d : String}
    (h : createDirAll fs d = .ok fs1) :
    fs1.files = fs.files ∧ fs1.failOpen = fs.failOpen ∧ fs1.failLock = fs.failLock := by
  unfold createDirAll at h
  by_cases hd : d ∈ fs.dirs
  · rw [if_pos hd] at h
    cases h
    exact ⟨rfl, rfl, rfl⟩
  · rw [if_neg hd] at h
    cases hl : fs.failCreate.lookup d
    · rw [hl] at h
      cases h
      exact ⟨rfl, rfl, rfl⟩
    · rw [hl] at h
      cases h

lemma ensure_parent_dir_ok_idem {fs fs1 : FS} {path : String}
    (h : ensure_parent_dir fs path = .ok fs1) :
    ensure_parent_dir fs1 path = .ok fs1 := by
  cases hp : pathParent path with
  | none =>
    unfold ensure_parent_dir at h ⊢
    simp only [hp] at h ⊢
  | some dir =>
    unfold ensure_parent_dir at h ⊢
    simp only [hp] at h ⊢
    cases hc : createDirAll fs dir with
    | error e => rw [hc] at h; cases h
    | ok fsa =>
      rw [hc] at h
      cases h
      rw [createDirAll_ok_idem hc]

lemma ensure_parent_dir_files {fs fs1 : FS} {path : String}
    (h : ensure_parent_dir fs path = .ok fs1) :
    fs1.files = fs.files ∧ fs1.failOpen = fs.failOpen ∧ fs1.failLock = fs.failLock := by
  cases hp : pathParent path with
  | none =>
    unfold ensure_parent_dir at h
    simp only [hp] at h
    cases h
    exact ⟨rfl, rfl, rfl⟩
  | some dir =>
    unfold ensure_parent_dir at h
    simp only [hp] at h
    cases hc : createDirAll fs dir with
    | error e => rw [hc] at h; cases h
    | ok fsa =>
      rw [hc] at h
      cases h
      exact createDirAll_files hc

lemma open_locked_async_none (fs : FS) (path : String) (mode : LockMode) :
    open_locked_async fs path mode none = open_locked fs path mode := by
  unfold open_locked_async
  cases he : ensure_parent_dir fs path with
  | error e =>
    unfold open_locked
    rw [he]
  | ok fs1 =>
    show open_locked fs1 path mode = open_locked fs path mode
    unfold open_locked
    rw [he, ensure_parent_dir_ok_idem he]

/-- The mode string passed to the `AcquireLock` error context. -/
def modeStr : LockMode → String
  | .Exclusive => "exclusive"
  | .Shared => "shared"

lemma openWith_ok_no_truncate {fs : FS} {p : String} {c : List Nat}
    (hne : fs.files.lookup p = some c) {f : RFile} {fs2 : FS}
    (h : openWith lockOpenOptions fs p = .ok (f, fs2)) : fs2 = fs := by
  unfold openWith at h
  cases hfo : fs.failOpen.lookup p with
  | some e => rw [hfo] at h; cases h
  | none =>
    rw [hfo, hne] at h
    rw [if_neg (by decide)] at h
    simp only [Except.ok.injEq, Prod.mk.injEq] at h
    exact h.2.symm

lemma open_and_lock_state {fs1 : FS} {p : String} {c : List Nat}
    (hne1 : fs1.files.lookup p = some c) {mode : LockMode} {f : RFile} {fs2 : FS}
    (h : open_and_lock fs1 p mode = .ok (f, fs2)) : fs2 = fs1 := by
  unfold open_and_lock at h
  cases ho : open_lock_file fs1 p with
  | error e => rw [ho] at h; cases h
  | ok pr =>
    obtain ⟨g, fsa⟩ := pr
    have hfsa : fsa = fs1 := openWith_ok_no_truncate hne1 ho
    simp only [ho] at h
    cases mode with
    | Exclusive =>
      cases hl : fileLock fsa g "exclusive" with
      | error e => simp only [hl] at h; cases h
      | ok u =>
        simp only [hl, Except.ok.injEq, Prod.mk.injEq] at h
        rw [← h.2]
        exact hfsa
    | Shared =>
      cases hl : fileLock fsa g "shared" with
      | error e => simp only [hl] at h; cases h
      | ok u =>
        simp only [hl, Except.ok.injEq, Prod.mk.injEq] at h
        rw [← h.2]
        exact hfsa

lemma open_locked_preserves {fs : FS} {p : String} {c : List Nat}
    (hne : fs.files.lookup p = some c) {mode : LockMode} {f : RFile} {fs2 : FS}
    (h : open_locked fs p mode = .ok (f, fs2)) :
    fs2.files.lookup p = some c := by
  unfold open_locked at h
  cases he : ensure_parent_dir fs p with
  | error e => rw [he] at h; cases h
  | ok fs1 =>
    rw [he] at h
    have hne1 : fs1.files.lookup p = some c := by
      rw [(ensure_parent_dir_files he).1]
      exact hne
    rw [open_and_lock_state hne1 h]
    exact hne1

/-- C5: with the background worker running to completion, the asynchronous
lock operations return exactly what the synchronous ones return on the same
inputs (guard and filesystem on success, the same error on failure); when the
worker's join fails after the directory step, the asynchronous mode alone
surfaces the `JoinBlocking` error kind. -/
theorem C5_sync_async_parity (self : XProcessLock) (w : World) :
    lock_exclusive_async self w none = lock_exclusive self w
  ∧ lock_shared_async self w none = lock_shared self w
  ∧ (∀ je dir fs1, pathParent self.lock_file = some dir →
      createDirAll w.fs dir = .ok fs1 →
      lock_exclusive_async self w (some je) = .error (.JoinBlocking je)
      ∧ lock_shared_async self w (some je) = .error (.JoinBlocking je)) := by
  refine ⟨?_, ?_, ?_⟩
  · unfold lock_exclusive_async lock_exclusive
    rw [open_locked_async_none]
  · unfold lock_shared_async lock_shared
    rw [open_locked_async_none]
  · intro je dir fs1 hp hc
    constructor
    · unfold lock_exclusive_async open_locked_async ensure_parent_dir
      simp only [hp, hc]
    · unfold lock_shared_async open_locked_async ensure_parent_dir
      simp only [hp, hc]

/-- C5 witness: parity and the join-failure error at concrete inputs. -/
theorem C5_witness :
    lock_exclusive_async ⟨"/tmp/xprocess-lock/a.lock"⟩
        ⟨none, "/tmp", ⟨[], [], [], [], []⟩⟩ (some 7)
      = .error (.JoinBlocking 7) :=
  ((C5_sync_async_parity ⟨"/tmp/xprocess-lock/a.lock"⟩
      ⟨none, "/tmp", ⟨[], [], [], [], []⟩⟩).2.2 7 "/tmp/xprocess-lock"
      ⟨["/tmp/xprocess-lock"], [], [], [], []⟩ rfl rfl).1

/-- C6: each fallible step of `open_locked` surfaces its failure immediately
as its own error kind with its attribution: directory creation as `CreateDir`
with the directory path, file open as `OpenLockFile` with the file path, and
lock acquisition as `AcquireLock` with the path, the requested mode string
and the underlying OS error. -/
theorem C6_error_attribution (fs : FS) (path dir : String) (mode : LockMode)
    (hp : pathParent path = some dir) :
    (∀ e, createDirAll fs dir = .error e →
        open_locked fs path mode = .error (.CreateDir dir e))
  ∧ (∀ fs1 e, createDirAll fs dir = .ok fs1 → open_lock_file fs1 path = .error e →
        open_locked fs path mode = .error (.OpenLockFile path e))
  ∧ (∀ fs1 f fs2 e, createDirAll fs dir = .ok fs1 →
        open_lock_file fs1 path = .ok (f, fs2) →
        fileLock fs2 f (modeStr mode) = .error e →
        open_locked fs path mode = .error (.AcquireLock path (modeStr mode) e)) := by
  refine ⟨?_, ?_, ?_⟩
  · intro e hc
    unfold open_locked ensure_parent_dir
    simp only [hp, hc]
  · intro fs1 e hc ho
    unfold open_locked ensure_parent_dir open_and_lock
    simp only [hp, hc, ho]
  · intro fs1 f fs2 e hc ho hl
    unfold open_locked ensure_parent_dir open_and_lock
    cases mode with
    | Exclusive =>
      simp only [modeStr] at hl
      simp only [hp, hc, ho, hl, modeStr]
    | Shared =>
      simp only [modeStr] at hl
      simp only [hp, hc, ho, hl, modeStr]

/-- C6 witness: a concrete filesystem in which the OS refuses the exclusive
lock with error 11; `open_locked` surfaces `AcquireLock` with the path, the
mode string and that error. -/
theorem C6_witness :
    open_locked
        ⟨["/tmp/xprocess-lock"], [("/tmp/xprocess-lock/a.lock", [55])], [], [],
          [(("/tmp/xprocess-lock/a.lock", "exclusive"), 11)]⟩
        "/tmp/xprocess-lock/a.lock" .Exclusive
      = .error (.AcquireLock "/tmp/xprocess-lock/a.lock" "exclusive" 11) :=
  (C6_error_attribution _ "/tmp/xprocess-lock/a.lock" "/tmp/xprocess-lock"
      .Exclusive rfl).2.2 _ ⟨"/tmp/xprocess-lock/a.lock"⟩ _ 11 rfl rfl rfl

/-- C7: `open_lock_file` opens with read and write access and create-if-missing
semantics and never truncates: on a filesystem where the lock file already
holds contents `c`, opening returns the filesystem unchanged, and any
successful `open_locked` (open plus lock) leaves the contents equal to `c`. -/
theorem C7_open_never_truncates (fs : FS) (p : String) (c : List Nat)
    (hne : fs.files.lookup p = some c) :
    lockOpenOptions.read = true ∧ lockOpenOptions.write = true
  ∧ lockOpenOptions.create = true ∧ lockOpenOptions.truncate = false
  ∧ (∀ f fs2, open_lock_file fs p = .ok (f, fs2) → fs2 = fs)
  ∧ (fs.failOpen.lookup p = none → open_lock_file fs p = .ok (⟨p⟩, fs))
  ∧ (∀ mode f fs2, open_locked fs p mode = .ok (f, fs2) →
      fs2.files.lookup p = some c) := by
  refine ⟨rfl, rfl, rfl, rfl, ?_, ?_, ?_⟩
  · intro f fs2 h
    exact openWith_ok_no_truncate hne h
  · intro hfo
    unfold open_lock_file openWith
    rw [hfo, hne]
    rw [if_neg (by decide)]
  · intro mode f fs2 h
    exact open_locked_preserves hne h

/-- C7 witness: opening a pre-existing lock file with contents `[55]` leaves
the filesystem, and hence those contents, unchanged. -/
theorem C7_witness :
    open_lock_file ⟨[], [("/tmp/a.lock", [55])], [], [], []⟩ "/tmp/a.lock"
      = .ok (⟨"/tmp/a.lock"⟩, ⟨[], [("/tmp/a.lock", [55])], [], [], []⟩) :=
  (C7_open_never_truncates ⟨[], [("/tmp/a.lock", [55])], [], [], []⟩
      "/tmp/a.lock" [55] rfl).2.2.2.2.2.1 rfl

/-- C10: a handle's lock-file path is fixed at `create` time from the
environment read then; the subsequent `lock_exclusive` / `lock_shared` calls
read only the handle's stored path and the filesystem, so two worlds that
agree on the filesystem — however their environment variable differs — give
identical results for an existing handle. -/
theorem C10_path_fixed_at_create (hx : XProcessLock) (w1 w2 : World)
    (hfs : w1.fs = w2.fs) :
    (lock_exclusive hx w1 = lock_exclusive hx w2
     ∧ lock_shared hx w1 = lock_shared hx w2)
  ∧ (∀ env tempDir name h, create env tempDir name = .ok h →
      h.lock_file = pathJoin (default_base_dir env tempDir) (sanitize name ++ ".lock")) := by
  refine ⟨⟨?_, ?_⟩, fun env tempDir name h hc => create_ok_lock_file hc⟩
  · unfold lock_exclusive
    rw [hfs]
  · unfold lock_shared
    rw [hfs]

lemma lockStep_inv {t t' : LockTable} (hs : LockStep t t')
    (ih : (∀ p ∈ t, p.2 = LockMode.Shared) ∨ ∃ h, t = [(h, LockMode.Exclusive)]) :
    (∀ p ∈ t', p.2 = LockMode.Shared) ∨ ∃ h, t' = [(h, LockMode.Exclusive)] := by
  cases hs with
  | acquire h m t2 hnotin hgrant =>
    cases m with
    | Exclusive =>
      have ht : t = [] := by
        simpa [grantOK, List.isEmpty_iff] using hgrant
      subst ht
      exact Or.inr ⟨h, rfl⟩
    | Shared =>
      have hall : ∀ p ∈ t, p.2 = LockMode.Shared := by
        intro p hp
        exact of_decide_eq_true (List.all_eq_true.mp hgrant p hp)
      refine Or.inl ?_
      intro p hp
      rcases List.mem_cons.mp hp with h1 | h2
      · rw [h1]
      · exact hall p h2
  | release h t2 =>
    rcases ih with hsh | ⟨h0, hex⟩
    · exact Or.inl (fun p hp => hsh p (List.mem_of_mem_filter hp))
    · subst hex
      by_cases hh : h0 = h
      · refine Or.inl ?_
        intro p hp
        rw [List.filter] at hp
        simp [hh] at hp
      · refine Or.inr ⟨h0, ?_⟩
        rw [List.filter]
        simp [hh]

lemma lock_invariant {tbl : LockTable} (hr : LockReachable tbl) :
    (∀ p ∈ tbl, p.2 = LockMode.Shared) ∨ ∃ h, tbl = [(h, LockMode.Exclusive)] := by
  induction hr with
  | init => exact Or.inl (fun p hp => absurd hp (List.not_mem_nil p))
  | step hr' hs ih => exact lockStep_inv hs ih

lemma sharedTable_modes (n : Nat) : ∀ p ∈ sharedTable n, p.2 = LockMode.Shared := by
  induction n with
  | zero => intro p hp; exact absurd hp (List.not_mem_nil p)
  | succ k ih =>
    intro p hp
    rcases List.mem_cons.mp hp with h1 | h2
    · rw [h1]
    · exact ih p h2

lemma sharedTable_ids (n : Nat) : ∀ x ∈ (sharedTable n).map Prod.fst, x < n := by
  induction n with
  | zero => intro x hx; exact absurd hx (List.not_mem_nil x)
  | succ k ih =>
    intro x hx
    simp only [sharedTable, List.map_cons, List.mem_cons] at hx
    rcases hx with h1 | h2
    · rw [h1]; exact Nat.lt_succ_self k
    · exact Nat.lt_succ_of_lt (ih x h2)

lemma sharedTable_length (n : Nat) : (sharedTable n).length = n := by
  induction n with
  | zero => rfl
  | succ k ih => simp only [sharedTable, List.length_cons, ih]

lemma sharedTable_reachable (n : Nat) : LockReachable (sharedTable n) := by
  induction n with
  | zero => exact .init
  | succ k ih =>
    refine .step ih ?_
    show LockStep (sharedTable k) ((k, .Shared) :: sharedTable k)
    refine LockStep.acquire k .Shared (sharedTable k) ?_ ?_
    · intro hmem
      exact absurd (sharedTable_ids k k hmem) (lt_irrefl k)
    · exact List.all_eq_true.mpr fun p hp => decide_eq_true (sharedTable_modes k p hp)

lemma mode_shared_iff (m : LockMode) : m = .Shared ↔ m ≠ .Exclusive := by
  cases m <;> simp

/-- C2 (modelled from the spec; the OS advisory lock is not code of this
crate): in every reachable lock-table state, an Exclusive holder is the only
holder (so at most one Exclusive holder exists and `exclCount tbl ≤ 1`); an
Exclusive request is grantable exactly when no holder exists, a Shared
request exactly when no Exclusive holder exists (otherwise it blocks); and
for every `n` a state with `n` concurrent Shared holders is reachable. -/
theorem C2_lock_table_protocol (tbl : LockTable) (hr : LockReachable tbl) :
    ((∃ p ∈ tbl, p.2 = LockMode.Exclusive) → ∃ h, tbl = [(h, LockMode.Exclusive)])
  ∧ exclCount tbl ≤ 1
  ∧ (grantOK tbl .Exclusive = true ↔ tbl = [])
  ∧ (grantOK tbl .Shared = true ↔ ∀ p ∈ tbl, p.2 ≠ LockMode.Exclusive)
  ∧ (∀ n, ∃ t, LockReachable t ∧ t.length = n ∧ ∀ p ∈ t, p.2 = LockMode.Shared) := by
  refine ⟨?_, ?_, ?_, ?_, ?_⟩
  · rintro ⟨p, hp, hex⟩
    rcases lock_invariant hr with hsh | hone
    · have := hsh p hp
      rw [hex] at this
      exact absurd this (by simp)
    · exact hone
  · rcases lock_invariant hr with hsh | ⟨h0, hone⟩
    · have : exclCount tbl = 0 := by
        refine List.countP_eq_zero.mpr ?_
        intro p hp
        simp only [decide_eq_true_eq]
        rw [hsh p hp]
        simp
      rw [this]
      exact Nat.zero_le 1
    · rw [hone]
      exact Nat.le_refl 1
  · simp [grantOK, List.isEmpty_iff]
  · rw [show grantOK tbl .Shared = tbl.all (fun p => p.2 = LockMode.Shared) from rfl,
      List.all_eq_true]
    constructor
    · intro hall p hp
      exact (mode_shared_iff p.2).mp (of_decide_eq_true (hall p hp))
    · intro hall p hp
      exact decide_eq_true ((mode_shared_iff p.2).mpr (hall p hp))
  · intro n
    exact ⟨sharedTable n, sharedTable_reachable n, sharedTable_length n,
      sharedTable_modes n⟩

/-- C2 witness: the protocol statement at the initial (empty) lock table. -/
theorem C2_witness :
    ((∃ p ∈ ([] : LockTable), p.2 = LockMode.Exclusive) →
      ∃ h, ([] : LockTable) = [(h, LockMode.Exclusive)])
  ∧ exclCount [] ≤ 1
  ∧ (grantOK [] .Exclusive = true ↔ ([] : LockTable) = [])
  ∧ (grantOK [] .Shared = true ↔ ∀ p ∈ ([] : LockTable), p.2 ≠ LockMode.Exclusive)
  ∧ (∀ n, ∃ t, LockReachable t ∧ t.length = n ∧ ∀ p ∈ t, p.2 = LockMode.Shared) :=
  C2_lock_table_protocol [] .init

/-- C10 witness: the same handle locked in two worlds whose environment
variables differ but whose filesystems agree gives the same result. -/
theorem C10_witness :
    lock_exclusive ⟨"/tmp/xprocess-lock/a.lock"⟩ ⟨none, "/tmp", ⟨[], [], [], [], []⟩⟩
      = lock_exclusive ⟨"/tmp/xprocess-lock/a.lock"⟩
          ⟨some "/other", "/x", ⟨[], [], [], [], []⟩⟩ :=
  ((C10_path_fixed_at_create ⟨"/tmp/xprocess-lock/a.lock"⟩
      ⟨none, "/tmp", ⟨[], [], [], [], []⟩⟩
      ⟨some "/other", "/x", ⟨[], [], [], [], []⟩⟩ rfl).1).1

end XProcess
